import Mathlib

/-!
Shallow embedding, in Lean 4, of the two core engines of the t4-backend
repository:

* src/modules/indicator_engine.py  (indicator computation per symbol)
* src/modules/radar_engine.py      (candidate scoring / selection)

Modelling conventions:

* Python floats are modelled as exact rationals.  All arithmetic
  performed by the two engines is +, -, *, /, abs, min, max and
  comparisons, which ℚ models exactly; the only exception is the
  square root used by the volume z-score, see qSqrt below.
* Python values flowing through the dynamic helpers of radar_engine.py
  are modelled by the inductive type PyVal; a missing dictionary key is
  modelled by an Option PyVal field being none.
* Python exceptions are modelled with Except String.
* List indexing uses List.getD with default 0; every read performed by
  the source is in range whenever the candle arrays have equal length,
  which the theorems below assume where it matters.
-/

/-- Python runtime values that reach the numeric-coercion helper
of radar_engine.py.  pynone is the Python None object; nan is a float
NaN; bool is kept separate because Python bool is an int subclass.
Infinite floats and non-scalar objects are not modelled (no claim
exercises them). -/
inductive PyVal where
  | pynone : PyVal
  | nan : PyVal
  | bool (b : Bool) : PyVal
  | num (q : ℚ) : PyVal
  | str (s : String) : PyVal
deriving DecidableEq, Repr

/-- Numeric value of a decimal-digit character. -/
def digitVal (c : Char) : ℕ := c.toNat - 48

/-- Value of a list of decimal digits, most significant first. -/
def natOfDigits (l : List Char) : ℕ :=
  l.foldl (fun n c => n * 10 + digitVal c) 0

/-- Exponent suffix of a float literal: optional sign then at least one
digit, consuming the whole remainder. -/
def parseExp (l : List Char) : Option ℤ :=
  let (sgn, rest) :=
    match l with
    | '+' :: r => ((1 : ℤ), r)
    | '-' :: r => ((-1 : ℤ), r)
    | r => ((1 : ℤ), r)
  let ds := rest.takeWhile Char.isDigit
  let rest2 := rest.dropWhile Char.isDigit
  if ds = [] ∨ rest2 ≠ [] then none
  else some (sgn * (natOfDigits ds : ℤ))

/-- Core of the model of Python's float() applied to a character list:
optional sign, integer digits, optional fractional part, optional
exponent.  Python also accepts "inf", "nan" and underscore separators,
which are not modelled (no claim exercises them). -/
def parseFloatChars (l : List Char) : Option ℚ :=
  let (sgn, rest) :=
    match l with
    | '+' :: r => ((1 : ℚ), r)
    | '-' :: r => ((-1 : ℚ), r)
    | r => ((1 : ℚ), r)
  let intDs := rest.takeWhile Char.isDigit
  let rest2 := rest.dropWhile Char.isDigit
  let (fracDs, rest3) :=
    match rest2 with
    | '.' :: r => (r.takeWhile Char.isDigit, r.dropWhile Char.isDigit)
    | r => (([] : List Char), r)
  if intDs = [] ∧ fracDs = [] then none
  else
    let mant : ℚ := (natOfDigits (intDs ++ fracDs) : ℚ) / (10 : ℚ) ^ fracDs.length
    match rest3 with
    | [] => some (sgn * mant)
    | 'e' :: r =>
      match parseExp r with
      | some e => some (sgn * mant * (10 : ℚ) ^ e)
      | none => none
    | 'E' :: r =>
      match parseExp r with
      | some e => some (sgn * mant * (10 : ℚ) ^ e)
      | none => none
    | _ => none

/-- Python str.strip(): leading and trailing whitespace removed.
Implemented over character lists because Lean's built-in string
functions do not reduce inside the kernel. -/
def stripChars (l : List Char) : List Char :=
  ((l.dropWhile Char.isWhitespace).reverse.dropWhile Char.isWhitespace).reverse

/-- Python s.replace(",", ".") for the single-character arguments used
by the source. -/
def commaToDot (l : List Char) : List Char :=
  l.map (fun c => if c = ',' then '.' else c)

/-- Model of Python float() on a character list: surrounding whitespace
is tolerated, then the decimal fragment above. -/
def floatOfChars (l : List Char) : Option ℚ :=
  parseFloatChars (stripChars l)

/-- Model of Python float(s) on a string. -/
def parseFloatQ (s : String) : Option ℚ :=
  floatOfChars s.toList

/-- Model of Python float(x) on a PyVal; none models the exception
path.  float of a bool is 1.0 or 0.0 (bool is an int subclass).
float of NaN would be NaN, which ℚ cannot carry; it is mapped to
none, which only matters for config parsing where both map to the
same default. -/
def pyFloat : PyVal → Option ℚ
  | .pynone => none
  | .nan => none
  | .bool b => some (if b then 1 else 0)
  | .num q => some q
  | .str s => parseFloatQ s

/-- Model of radar_engine._to_float: None and NaN go to none, numbers
pass through, strings are stripped, a trailing percent sign divides by
100, decimal commas are tolerated, and unparseable strings go to
none. -/
def toFloat : PyVal → Option ℚ
  | .pynone => none
  | .nan => none
  | .bool b => some (if b then 1 else 0)
  | .num q => some q
  | .str s =>
    let t := stripChars s.toList
    if t = [] then none
    else if t.getLast? = some '%' then
      match floatOfChars (commaToDot t.dropLast) with
      | some v => some (v / 100)
      | none => none
    else floatOfChars (commaToDot t)

/-- Value of row.get(key) fed to _to_float: a missing key is the Python
None object, so it coerces to none as well. -/
def toFloatOpt : Option PyVal → Option ℚ
  | none => none
  | some v => toFloat v

/-- Model of radar_engine._clamp (the callers always pass the default
bounds 0 and 100, spelled explicitly here). -/
def clamp (x minVal maxVal : ℚ) : ℚ :=
  max minVal (min maxVal x)

/-- Model of radar_engine._normalize_date_to_str.  The date field is
modelled as an optional string: Python date/datetime objects are not
modelled (every row in the claims carries a string date), and any
non-string value normalizes to the empty string exactly like the
source's fallthrough branch. -/
def normalizeDateToStr : Option String → String
  | some s => String.mk (s.toList.take 10)
  | none => ""

example : toFloat (.str "x1") = none := by decide
example : toFloat .nan = none := by decide
example : toFloat (.num 3) = some 3 := rfl
example : clamp 120 0 100 = 100 := by decide

/-!
Indicator computation engine: shallow embedding of
src/modules/indicator_engine.py.  Indices are natural numbers; the
source guards every negative-index case before subscripting, and the
embedding mirrors those guards with Nat arithmetic (Python's
k < n - 1 on ints is k + 1 < n on naturals).  Out-of-range list reads,
impossible in the source under the recorded guards, are modelled with
List.getD defaulting to 0.
-/

/-- Model of indicator_engine._sma: simple moving average of the n
values ending at index k, none when fewer than n values precede k or k
is out of range.  (The source would divide by zero for n = 0; every
call site uses n of 5 or 20.) -/
def sma (series : List ℚ) (n k : ℕ) : Option ℚ :=
  if series = [] then none
  else if k + 1 < n ∨ series.length ≤ k then none
  else some (((series.drop (k + 1 - n)).take n).sum / (n : ℚ))

/-- Running EMA value of indicator_engine._ema_series: index 0 of this
recursion is the seed at list index n-1 (the SMA of the first n
values), and step m+1 applies the recurrence at list index n+m. -/
def emaRun (series : List ℚ) (n : ℕ) : ℕ → ℚ
  | 0 => (series.take n).sum / (n : ℚ)
  | m + 1 =>
    series.getD (n + m) 0 * (2 / ((n : ℚ) + 1))
      + emaRun series n m * (1 - 2 / ((n : ℚ) + 1))

/-- Model of indicator_engine._ema_series: none before index n-1, the
seeded Wilder-style recurrence afterwards, everything none when the
series is shorter than n. -/
def emaSeries (series : List ℚ) (n : ℕ) : List (Option ℚ) :=
  if series.length < n then List.replicate series.length none
  else
    (List.range series.length).map
      (fun i => if i + 1 < n then none else some (emaRun series n (i + 1 - n)))

/-- Model of indicator_engine._ema_at. -/
def emaAt (series : List ℚ) (n k : ℕ) : Option ℚ :=
  if series.length ≤ k then none else (emaSeries series n).getD k none

/-- Model of indicator_engine._macd_main_line: EMA12 - EMA26 where both
exist, none elsewhere. -/
def macdMainLine (closeArr : List ℚ) : List (Option ℚ) :=
  (List.range closeArr.length).map
    (fun i =>
      match (emaSeries closeArr 12).getD i none, (emaSeries closeArr 26).getD i none with
      | some e12, some e26 => some (e12 - e26)
      | _, _ => none)

/-- Positive directional movement at bar i (the dm_pos array of
_adx_series; index 0 holds Python None, read back only through
"or 0.0", hence modelled as 0). -/
def dmPosAt (high low : List ℚ) (i : ℕ) : ℚ :=
  if i = 0 then 0
  else
    let upMove := high.getD i 0 - high.getD (i - 1) 0
    let downMove := low.getD (i - 1) 0 - low.getD i 0
    if 0 < upMove ∧ downMove < upMove then upMove else 0

/-- Negative directional movement at bar i (the dm_neg array of
_adx_series). -/
def dmNegAt (high low : List ℚ) (i : ℕ) : ℚ :=
  if i = 0 then 0
  else
    let upMove := high.getD i 0 - high.getD (i - 1) 0
    let downMove := low.getD (i - 1) 0 - low.getD i 0
    if 0 < downMove ∧ upMove < downMove then downMove else 0

/-- True range at bar i; this is the tr_arr entry of _adx_series and
also the per-bar term of _atr_from_candles, which compute the same
max(high-low, abs(high-prevClose), abs(low-prevClose)) formula. -/
def trAt (high low close : List ℚ) (i : ℕ) : ℚ :=
  if i = 0 then 0
  else
    max (high.getD i 0 - low.getD i 0)
      (max |high.getD i 0 - close.getD (i - 1) 0| |low.getD i 0 - close.getD (i - 1) 0|)

/-- Sum f(1) + ... + f(n): the initial Wilder sums of _adx_series taken
over i in range(1, n+1). -/
def seedSum (f : ℕ → ℚ) (n : ℕ) : ℚ :=
  ((List.range n).map (fun j => f (j + 1))).sum

/-- Loop state of the _adx_series smoothing loop: the three running
Wilder sums, the out entry written at the previous index, and dx_prev. -/
structure AdxSt where
  trN : ℚ
  dmPosN : ℚ
  dmNegN : ℚ
  outPrev : Option ℚ
  dxPrev : Option ℚ
deriving Repr

/-- State of the _adx_series smoothing loop after m iterations: step
m ≥ 1 processes list index n + m, so outPrev holds the out entry at
index n + m.  Step 0 is the seeded state before the loop. -/
def adxStep (high low close : List ℚ) (n : ℕ) : ℕ → AdxSt
  | 0 =>
    ⟨seedSum (trAt high low close) n, seedSum (dmPosAt high low) n,
      seedSum (dmNegAt high low) n, none, none⟩
  | m + 1 =>
    let st := adxStep high low close n m
    let i := n + 1 + m
    let trN := st.trN - st.trN / (n : ℚ) + trAt high low close i
    let dmPosN := st.dmPosN - st.dmPosN / (n : ℚ) + dmPosAt high low i
    let dmNegN := st.dmNegN - st.dmNegN / (n : ℚ) + dmNegAt high low i
    let diPos := if trN = 0 then 0 else 100 * (dmPosN / trN)
    let diNeg := if trN = 0 then 0 else 100 * (dmNegN / trN)
    let denom := diPos + diNeg
    let dx := if denom = 0 then 0 else 100 * |diPos - diNeg| / denom
    let out :=
      if i = n + 1 then dx
      else
        match (match st.outPrev with | some p => some p | none => st.dxPrev) with
        | none => dx
        | some prev => (prev * ((n : ℚ) - 1) + dx) / (n : ℚ)
    ⟨trN, dmPosN, dmNegN, some out, some dx⟩

/-- Model of indicator_engine._adx_series, preserving the source's
boundary quirk: out at index n+1 is taken as the raw dx of that index
(the source branches explicitly on i == n+1), later indices apply
Wilder smoothing to the previous out entry. -/
def adxSeries (high low close : List ℚ) (n : ℕ) : List (Option ℚ) :=
  if close.length < n + 1 then List.replicate close.length none
  else
    (List.range close.length).map
      (fun i => if i < n + 1 then none else (adxStep high low close n (i - n)).outPrev)

/-- Model of indicator_engine._cci_series. -/
def cciSeries (tp : List ℚ) (n : ℕ) : List (Option ℚ) :=
  (List.range tp.length).map
    (fun i =>
      match sma tp n i with
      | none => none
      | some s =>
        let md := (((tp.drop (i + 1 - n)).take n).map (fun x => |x - s|)).sum / (n : ℚ)
        if md = 0 then some 0
        else some ((tp.getD i 0 - s) / ((0.015 : ℚ) * md)))

/-- Model of indicator_engine._atr_from_candles: explicit error when
any of the three arrays is empty or shorter than period + 1, otherwise
the mean of the first period true ranges Wilder-smoothed through the
remaining bars. -/
def atrFromCandles (high low close : List ℚ) (period : ℕ) : Except String ℚ :=
  if high = [] ∨ low = [] ∨ close = [] ∨ high.length < period + 1
      ∨ low.length < period + 1 ∨ close.length < period + 1 then
    .error "ATR verisi yetersiz"
  else
    let trList := (List.range (high.length - 1)).map (fun j => trAt high low close (j + 1))
    let atr0 := (trList.take period).sum / (period : ℚ)
    .ok ((trList.drop period).foldl
      (fun atr tr => (atr * ((period : ℚ) - 1) + tr) / (period : ℚ)) atr0)

/-- The 14 close-to-close deltas ending at index k used by
_compute_rsi14: delta j is close[k-14+j+1] - close[k-14+j]. -/
def rsiDeltas (close : List ℚ) (k : ℕ) : List ℚ :=
  (List.range 14).map
    (fun j => close.getD (k - 14 + j + 1) 0 - close.getD (k - 14 + j) 0)

/-- The gains/losses accumulation loop of _compute_rsi14: a positive
delta adds to gains, any other delta is subtracted from losses. -/
def rsiGainLoss (deltas : List ℚ) : ℚ × ℚ :=
  deltas.foldl
    (fun p diff => if 0 < diff then (p.1 + diff, p.2) else (p.1, p.2 - diff)) (0, 0)

/-- Model of indicator_engine._compute_rsi14. -/
def computeRsi14 (close : List ℚ) (k : ℕ) : Option ℚ :=
  if k < 14 ∨ close.length ≤ k then none
  else
    let gl := rsiGainLoss (rsiDeltas close k)
    let avgGain := gl.1 / 14
    let avgLoss := gl.2 / 14
    if avgLoss ≠ 0 then some (100 - 100 / (1 + avgGain / avgLoss))
    else if avgGain ≠ 0 then some 100
    else some 50

/-- Model of indicator_engine._compute_vol_trend. -/
def computeVolTrend (volumes : List ℚ) (k : ℕ) : Option ℚ :=
  match sma volumes 5 k, sma volumes 20 k with
  | some v5, some v20 => if v20 = 0 then none else some (v5 / v20 - 1)
  | _, _ => none

/-- Configuration map handed to the indicator engine; only the two
risk-color threshold keys are ever read. -/
structure IndCfg where
  riskAtrGreenMax : Option PyVal
  riskAtrYellowMax : Option PyVal
deriving DecidableEq, Repr

/-- An empty configuration dict. -/
def defaultIndCfg : IndCfg := ⟨none, none⟩

/-- Model of indicator_engine._macro_color_from_atr.  The isinstance
guard of the source is vacuous here because the embedded ATR percent
is always a rational; the try/except around float() is the getD
fallback. -/
def macroColorFromAtr (atrPctDecimal : Option ℚ) (cfg : IndCfg) : String :=
  match atrPctDecimal with
  | none => ""
  | some a =>
    if a < 0 then ""
    else
      let gMax0 :=
        match cfg.riskAtrGreenMax with
        | none => (0.03 : ℚ)
        | some v => (pyFloat v).getD 0.03
      let yMax0 :=
        match cfg.riskAtrYellowMax with
        | none => (0.06 : ℚ)
        | some v => (pyFloat v).getD 0.06
      let gMax1 := if 1 ≤ gMax0 then gMax0 / 100 else gMax0
      let yMax1 := if 1 ≤ yMax0 then yMax0 / 100 else yMax0
      let gMax := if gMax1 ≤ 0 then 0.03 else gMax1
      let yMax := if yMax1 ≤ gMax then max 0.06 (gMax + 0.01) else yMax1
      if a ≤ gMax then "GREEN"
      else if a ≤ yMax then "YELLOW"
      else "RED"

/-- Stand-in for the float square root used by the volume z-score
(var ** 0.5): an exact square root is not rational, so the embedding
uses a fixed-precision approximation.  No claim depends on the value
of the z-score, only on whether it is present, and both branches below
the square root produce a present value. -/
def qSqrt (x : ℚ) : ℚ :=
  (Nat.sqrt (Int.toNat ⌊x * 10 ^ 24⌋) : ℚ) / 10 ^ 12

/-- The vol_z20 block of compute_indicators_for_symbol: z-score of
volume at k against the 20 volumes strictly before k (the slice
v[k-20:k] excludes k), with population variance; 0 when the standard
deviation is 0. -/
def volZ20At (v : List ℚ) (volK : Option ℚ) (k : ℕ) : Option ℚ :=
  if v ≠ [] ∧ volK.isSome ∧ 20 ≤ k then
    let last20 := (v.drop (k - 20)).take 20
    if last20 = [] then none
    else
      let mean := last20.sum / (last20.length : ℚ)
      let varPop := (last20.map (fun x => (x - mean) ^ 2)).sum / (last20.length : ℚ)
      let sd := qSqrt varPop
      if sd ≠ 0 then some ((volK.getD 0 - mean) / sd) else some 0
  else none

/-- Typical price array of the cci20 block: (high + low + close) / 3
over range(len(close)). -/
def tpOf (high low close : List ℚ) : List ℚ :=
  (List.range close.length).map
    (fun i => (high.getD i 0 + low.getD i 0 + close.getD i 0) / 3)

/-- Per-symbol candle arrays, the value of candles_by_symbol for one
symbol.  A key absent from the Python dict behaves as the empty
list ("or []" in the source). -/
structure Candles where
  t : List ℚ
  o : List ℚ
  h : List ℚ
  l : List ℚ
  c : List ℚ
  v : List ℚ
deriving DecidableEq, Repr

/-- The indicators dict of one Indicator Snapshot. -/
structure Indicators where
  atrPct : Option ℚ
  mom5 : Option ℚ
  mom20 : Option ℚ
  volZ20 : Option ℚ
  rsi14 : Option ℚ
  ema20 : Option ℚ
  ema50 : Option ℚ
  adx14 : Option ℚ
  macd : Option ℚ
  cci20 : Option ℚ
  volTrend : Option ℚ
  riskColor : String
  close : ℚ
  high : ℚ
  low : ℚ
  volume : Option ℚ
deriving DecidableEq, Repr

/-- Return value of compute_indicators_for_symbol.  The date string of
the source is derived from the timestamp t[k] when available and from
the current UTC date otherwise; the embedding keeps the raw timestamp,
with none standing for the current-date fallback. -/
structure SymbolInfo where
  symbol : String
  dateTs : Option ℚ
  indicators : Indicators
deriving DecidableEq, Repr

/-- Model of indicator_engine.compute_indicators_for_symbol.  Raising
ValueError is modelled by the error branch of Except: the zero-bar
case raises directly and the unconditional ATR call propagates the
insufficient-history error, aborting the whole snapshot. -/
def computeIndicatorsForSymbol (symbol : String) (cndl : Candles) (cfg : IndCfg) :
    Except String SymbolInfo :=
  let t := cndl.t
  let h := cndl.h
  let l := cndl.l
  let c := cndl.c
  let v := cndl.v
  let n := c.length
  if n = 0 then .error ("No candle data for symbol " ++ symbol)
  else
    let k := n - 1
    let closeK := c.getD k 0
    let highK := h.getD k 0
    let lowK := l.getD k 0
    let volK : Option ℚ := if v ≠ [] ∧ k < v.length then some (v.getD k 0) else none
    match atrFromCandles h l c 14 with
    | .error e => .error e
    | .ok atr14 =>
      let atrPct : Option ℚ := if 0 < closeK then some (atr14 / closeK) else none
      let mom5 : Option ℚ :=
        if 5 ≤ k ∧ closeK ≠ 0 then
          let c5 := c.getD (k - 5) 0
          if c5 ≠ 0 then some (closeK / c5 - 1) else none
        else none
      let mom20 : Option ℚ :=
        if 20 ≤ k ∧ closeK ≠ 0 then
          let c20 := c.getD (k - 20) 0
          if c20 ≠ 0 then some (closeK / c20 - 1) else none
        else none
      let volZ := volZ20At v volK k
      let rsi14 := computeRsi14 c k
      let ema20 := emaAt c 20 k
      let ema50 := emaAt c 50 k
      let adx14 : Option ℚ := if 14 ≤ k then (adxSeries h l c 14).getD k none else none
      let macdV : Option ℚ := if 26 ≤ k then (macdMainLine c).getD k none else none
      let cci20 : Option ℚ := if 19 ≤ k then (cciSeries (tpOf h l c) 20).getD k none else none
      let volTrend : Option ℚ := if v ≠ [] then computeVolTrend v k else none
      let riskColor := macroColorFromAtr atrPct cfg
      let dateTs : Option ℚ := if t ≠ [] ∧ k < t.length then some (t.getD k 0) else none
      .ok ⟨symbol, dateTs,
        ⟨atrPct, mom5, mom20, volZ, rsi14, ema20, ema50, adx14, macdV, cci20,
          volTrend, riskColor, closeK, highK, lowK, volK⟩⟩

/-- One element of the radar_candidates output of run_indicator_engine:
indicators is none exactly when the error branch produced the row with
an empty indicators dict and an error string. -/
structure OutRow where
  symbol : String
  dateTs : Option ℚ
  indicators : Option Indicators
  error : Option String
deriving DecidableEq, Repr

/-- Dictionary lookup candles_by_symbol.get(sym). -/
def lookupCandles (cbs : List (String × Candles)) (sym : String) : Option Candles :=
  (cbs.find? (fun p => p.1 == sym)).map (fun p => p.2)

/-- Body of the per-symbol try/except of run_indicator_engine: a
successful computation yields the info row, an exception is caught and
turned into a row with an error field and empty indicators. -/
def rowForSymbol (cfg : IndCfg) (sym : String) (cndl : Candles) : OutRow :=
  match computeIndicatorsForSymbol sym cndl cfg with
  | .ok info => ⟨info.symbol, info.dateTs, some info.indicators, none⟩
  | .error e => ⟨sym, none, none, some e⟩

/-- Model of the real mode (MOD 1) of run_indicator_engine: one pass
over the symbol list, silently skipping symbols without a candle
entry.  The legacy dummy mode taken when candles_by_symbol is absent
is outside every claim and is not modelled. -/
def runIndicatorEngine (symbols : List String) (candlesBySymbol : List (String × Candles))
    (cfg : IndCfg) : List OutRow :=
  match symbols with
  | [] => []
  | sym :: rest =>
    match lookupCandles candlesBySymbol sym with
    | none => runIndicatorEngine rest candlesBySymbol cfg
    | some cndl => rowForSymbol cfg sym cndl :: runIndicatorEngine rest candlesBySymbol cfg

/-!
Candidate scoring and selection engine: shallow embedding of
src/modules/radar_engine.py (compute_radar_from_candidates).
-/

/-- One input row of compute_radar_from_candidates.  Every numeric
field is an optional PyVal, none meaning the key is absent from the
dict; the date field is an optional string (Python date/datetime
objects are not modelled, and any non-string date normalizes to ""
exactly like the source's fallthrough). -/
structure CandRow where
  date : Option String
  symbol : Option String
  ticker : Option String
  code : Option String
  sector : Option String
  volume : Option PyVal
  atrPct : Option PyVal
  atr : Option PyVal
  mom5d : Option PyVal
  mom20d : Option PyVal
  volZ20 : Option PyVal
  rsi14 : Option PyVal
  macd : Option PyVal
  adx14 : Option PyVal
  cci20 : Option PyVal
  volTrend : Option PyVal
  close : Option PyVal
  ema20 : Option PyVal
  ema50 : Option PyVal
deriving DecidableEq, Repr

/-- A candidates_debug entry. -/
structure ScoredRow where
  date : String
  symbol : String
  sMom : ℚ
  sVol : ℚ
  sTrend : ℚ
  sBreakout : ℚ
  sRs : ℚ
  atrPenalty : ℚ
  baseScore : ℚ
  macroMult : ℚ
  adjScore : ℚ
  volume : ℚ
  atrPct : Option ℚ
deriving DecidableEq, Repr

/-- A picks entry; the sector field is hard-coded to "" by the
source. -/
structure PickRow where
  date : String
  symbol : String
  baseScore : ℚ
  macroMult : ℚ
  atrPct : Option ℚ
  sector : String
  volume : ℚ
  adjScore : ℚ
deriving DecidableEq, Repr

/-- The summary dict of the scoring result. -/
structure RadarSummary where
  latest : String
  candidates : ℕ
  picked : ℕ
  macroTrend : String
  macroMult : ℚ
deriving DecidableEq, Repr

/-- The full return value of compute_radar_from_candidates. -/
structure RadarResult where
  latestDate : String
  candidatesDebug : List ScoredRow
  picks : List PickRow
  summary : RadarSummary
deriving DecidableEq, Repr

/-- The config dict of the scoring engine.  The source reads only
RADAR_LIQ_MIN; the sector-cap keys are carried here to show that they
are ignored. -/
structure RadarConfig where
  radarLiqMin : Option PyVal
  radarUseSectorCap : Option PyVal
  radarSectorCap : Option PyVal
deriving DecidableEq, Repr

/-- An empty scoring config dict. -/
def defaultRadarConfig : RadarConfig := ⟨none, none, none⟩

/-- The liquidity floor: float(config.get("RADAR_LIQ_MIN", 1_000_000))
with the try/except fallback to 1,000,000. -/
def liqMinOf (config : RadarConfig) : ℚ :=
  match config.radarLiqMin with
  | none => 1000000
  | some val => (pyFloat val).getD 1000000

/-- Dictionary lookup in the macro-multiplier table. -/
def lookupMult (macroMults : List (String × ℚ)) (key : String) : Option ℚ :=
  (macroMults.find? (fun p => p.1 == key)).map (fun p => p.2)

/-- ASCII model of Python str.upper(), sufficient for regime labels. -/
def upperChar (ch : Char) : Char :=
  if 'a' ≤ ch ∧ ch ≤ 'z' then Char.ofNat (ch.toNat - 32) else ch

/-- Uppercase a string characterwise. -/
def upperStr (s : String) : String :=
  String.mk (s.toList.map upperChar)

/-- Lexicographic comparison of character lists. -/
def ltChars : List Char → List Char → Bool
  | [], [] => false
  | [], _ :: _ => true
  | _ :: _, [] => false
  | a :: as, b :: bs => if a < b then true else if b < a then false else ltChars as bs

/-- Python's lexicographic codepoint comparison on strings (the
d_str > latest_str test of the source), written over character lists. -/
def strLt (a b : String) : Bool := ltChars a.toList b.toList

/-- The latest_str scan of compute_radar_from_candidates: maximum
normalized nonempty date string over all rows, none when there is
none. -/
def latestStrOf (rows : List CandRow) : Option String :=
  rows.foldl
    (fun acc row =>
      let dStr := normalizeDateToStr row.date
      if dStr = "" then acc
      else
        match acc with
        | none => some dStr
        | some b => if strLt b dStr then some dStr else acc)
    none

/-- Python's x or y on optional strings: x unless it is falsy (absent
or empty). -/
def orStr (a b : Option String) : Option String :=
  match a with
  | some s => if s = "" then b else some s
  | none => b

/-- row.get("atr_pct", row.get("atr")): the atr key is consulted only
when the atr_pct key is absent. -/
def getAtrRaw (row : CandRow) : Option PyVal :=
  match row.atrPct with
  | some val => some val
  | none => row.atr

/-- Loop body of compute_radar_from_candidates for one row, given the
precomputed latest date, liquidity floor and macro multiplier: none
models continue (no symbol, stale date, or volume below the floor),
some is the scored candidate appended to both output lists.  The
source also parses rsi_14, macd and cci20 into locals that feed
neither the scores nor the outputs; those dead locals are omitted. -/
def processRow (latestStr : String) (liqMin macroMult : ℚ) (row : CandRow) :
    Option ScoredRow :=
  match orStr (orStr row.symbol row.ticker) row.code with
  | none => none
  | some symbol =>
    if symbol = "" then none
    else if normalizeDateToStr row.date ≠ latestStr then none
    else
      let atrPct0 := toFloatOpt (getAtrRaw row)
      let atrPct :=
        match atrPct0 with
        | some a => if a < 0 then none else some a
        | none => none
      let volume := (toFloatOpt row.volume).getD 0
      if volume < liqMin then none
      else
        let mom5d := toFloatOpt row.mom5d
        let mom20d := toFloatOpt row.mom20d
        let volZ20 := toFloatOpt row.volZ20
        let volTrend := toFloatOpt row.volTrend
        let adx14 := toFloatOpt row.adx14
        let close := toFloatOpt row.close
        let ema20 := toFloatOpt row.ema20
        let ema50 := toFloatOpt row.ema50
        let totalMom := mom5d.getD 0 + mom20d.getD 0
        let sMom :=
          if mom5d.isSome ∨ mom20d.isSome then clamp (50 + 500 * totalMom) 0 100
          else (50 : ℚ)
        let sVol0 :=
          match volZ20 with
          | none => (50 : ℚ)
          | some z => if 0 ≤ z then clamp (50 + 35 * z) 0 100 else clamp (50 + 15 * z) 0 100
        let sVol :=
          match volTrend with
          | some vt => clamp (sVol0 + vt * 20) 0 100
          | none => sVol0
        let sTrend0 : ℚ :=
          match ema20, ema50 with
          | some e20, some e50 => if e50 < e20 then 70 else if e20 < e50 then 40 else 50
          | _, _ => 50
        let sTrend1 :=
          match adx14 with
          | some a => if 25 ≤ a then sTrend0 + 10 else if 15 ≤ a then sTrend0 + 5 else sTrend0
          | none => sTrend0
        let sTrend := clamp sTrend1 0 100
        let sBreakout : ℚ :=
          match close, ema20 with
          | some cl, some e20 => if e20 < cl then 75 else 40
          | _, _ => 50
        let sRs : ℚ := 50
        let atrPenalty : ℚ :=
          match atrPct with
          | some a => if 0 < a then min (a / (0.15 : ℚ)) 1 * 10 else 0
          | none => 0
        let baseScore :=
          clamp ((0.30 : ℚ) * sMom + (0.20 : ℚ) * sVol + (0.25 : ℚ) * sTrend
            + (0.15 : ℚ) * sBreakout + (0.10 : ℚ) * sRs) 0 100
        let adjScore := baseScore * macroMult - atrPenalty
        some
          ⟨latestStr, symbol, sMom, sVol, sTrend, sBreakout, sRs, atrPenalty,
            baseScore, macroMult, adjScore, volume, atrPct⟩

/-- The picks entry built from the same scored row (sector is
hard-coded to "" by the source). -/
def pickOfScored (sr : ScoredRow) : PickRow :=
  ⟨sr.date, sr.symbol, sr.baseScore, sr.macroMult, sr.atrPct, "", sr.volume, sr.adjScore⟩

/-- Python's stable sort with key (adj_score or 0.0) and reverse=True,
modelled by insertion sort on the descending relation.  The "or 0.0"
coercion maps 0.0 to 0.0 and every other rational to itself, so it is
the identity on the sort key; tie order is left to the sort
implementation, as in the source. -/
def sortScoredDesc (l : List ScoredRow) : List ScoredRow :=
  List.insertionSort (fun a b => b.adjScore ≤ a.adjScore) l

/-- The same descending sort for the picks list. -/
def sortPicksDesc (l : List PickRow) : List PickRow :=
  List.insertionSort (fun a b => b.adjScore ≤ a.adjScore) l

/-- str(macro_trend or "YELLOW").upper(): empty label falls back to
YELLOW before uppercasing. -/
def macroTrendUpOf (macroTrend : String) : String :=
  upperStr (if macroTrend = "" then "YELLOW" else macroTrend)

/-- macro_mults.get(trend, macro_mults.get("DEFAULT", 1.0)). -/
def macroMultOf (macroTrend : String) (macroMults : List (String × ℚ)) : ℚ :=
  (lookupMult macroMults (macroTrendUpOf macroTrend)).getD
    ((lookupMult macroMults "DEFAULT").getD 1)

/-- Model of radar_engine.compute_radar_from_candidates.  The
sector-cap logic is absent: the source carries only a comment stating
that it is disabled and not implemented, so picks is the full sorted
list. -/
def computeRadarFromCandidates (radarCandidates : List CandRow) (macroTrend : String)
    (macroMults : List (String × ℚ)) (config : RadarConfig) : RadarResult :=
  let liqMin := liqMinOf config
  let macroTrendUp := macroTrendUpOf macroTrend
  let macroMult := macroMultOf macroTrend macroMults
  match latestStrOf radarCandidates with
  | none => ⟨"", [], [], ⟨"", 0, 0, macroTrendUp, macroMult⟩⟩
  | some latestStr =>
    let scored := radarCandidates.filterMap (processRow latestStr liqMin macroMult)
    let candidatesDebug := sortScoredDesc scored
    let picks := sortPicksDesc (scored.map pickOfScored)
    ⟨latestStr, candidatesDebug, picks,
      ⟨latestStr, candidatesDebug.length, picks.length, macroTrendUp, macroMult⟩⟩

/-!
Concrete fixtures used by witnesses and counterexamples.
-/

/-- A candidate row with only date, symbol, sector, volume and 5-day
momentum set (field order: date, symbol, ticker, code, sector, volume,
atr_pct, atr, mom_5d, mom_20d, vol_z20, rsi_14, macd, adx14, cci20,
vol_trend, close, ema20, ema50). -/
def simpleRow (d sym : String) (vol m5 : Option PyVal) : CandRow :=
  ⟨some d, some sym, none, none, some "TECH", vol, none, none, m5,
    none, none, none, none, none, none, none, none, none, none⟩

/-- Liquid row with no indicator data at all. -/
def rowA : CandRow := simpleRow "2025-01-10" "AAA" (some (.num 2000000)) none

/-- Three same-sector liquid rows with distinct momentum, hence
distinct adjusted scores. -/
def rowB : CandRow := simpleRow "2025-01-10" "BBB" (some (.num 3000000)) (some (.num (1/50)))

/-- Same-sector sibling of rowB with smaller momentum. -/
def rowC : CandRow := simpleRow "2025-01-10" "CCC" (some (.num 4000000)) (some (.num (1/100)))

/-- A row whose volume field holds a float NaN. -/
def rowNan : CandRow := simpleRow "2025-01-10" "NNN" (some .nan) none

/-- Macro-multiplier table with unit multipliers. -/
def demoMults : List (String × ℚ) := [("GREEN", 1), ("DEFAULT", 1)]

/-- Scoring config enabling the sector cap keys that the source
ignores. -/
def sectorCapConfig : RadarConfig := ⟨none, some (.bool true), some (.num 1)⟩

/-- The entry produced for rowA: every sub-score neutral at 50. -/
def srA : ScoredRow :=
  ⟨"2025-01-10", "AAA", 50, 50, 50, 50, 50, 0, 50, 1, 50, 2000000, none⟩

/-- Candle fixture with five bars: enough for nothing that needs 15. -/
def fiveCandles : Candles :=
  ⟨[1, 2, 3, 4, 5], [10, 10, 10, 10, 10], [11, 12, 13, 14, 15],
    [9, 10, 11, 12, 13], [10, 11, 12, 13, 14], [500, 500, 500, 500, 500]⟩

/-- Candle arrays with zero bars. -/
def emptyCandles : Candles := ⟨[], [], [], [], [], []⟩

/-- Sixteen flat bars: enough history for ATR, RSI and ADX but not for
EMA20, EMA50, CCI20 or MACD. -/
def candles16 : Candles :=
  ⟨[], [], List.replicate 16 7, List.replicate 16 3, List.replicate 16 5, []⟩

/-!
Helper lemmas about the scoring engine.
-/

lemma sorted_sortScoredDesc (l : List ScoredRow) :
    List.Sorted (fun a b => b.adjScore ≤ a.adjScore) (sortScoredDesc l) := by
  haveI : IsTotal ScoredRow (fun a b => b.adjScore ≤ a.adjScore) :=
    ⟨fun a b => le_total b.adjScore a.adjScore⟩
  haveI : IsTrans ScoredRow (fun a b => b.adjScore ≤ a.adjScore) :=
    ⟨fun a b c hab hbc => le_trans hbc hab⟩
  exact List.sorted_insertionSort _ l

lemma sorted_sortPicksDesc (l : List PickRow) :
    List.Sorted (fun a b => b.adjScore ≤ a.adjScore) (sortPicksDesc l) := by
  haveI : IsTotal PickRow (fun a b => b.adjScore ≤ a.adjScore) :=
    ⟨fun a b => le_total b.adjScore a.adjScore⟩
  haveI : IsTrans PickRow (fun a b => b.adjScore ≤ a.adjScore) :=
    ⟨fun a b c hab hbc => le_trans hbc hab⟩
  exact List.sorted_insertionSort _ l

lemma mem_sortScoredDesc {x : ScoredRow} {l : List ScoredRow} :
    x ∈ sortScoredDesc l ↔ x ∈ l :=
  (List.perm_insertionSort _ l).mem_iff

lemma mem_sortPicksDesc {x : PickRow} {l : List PickRow} :
    x ∈ sortPicksDesc l ↔ x ∈ l :=
  (List.perm_insertionSort _ l).mem_iff

lemma length_sortScoredDesc (l : List ScoredRow) : (sortScoredDesc l).length = l.length :=
  (List.perm_insertionSort _ l).length_eq

lemma length_sortPicksDesc (l : List PickRow) : (sortPicksDesc l).length = l.length :=
  (List.perm_insertionSort _ l).length_eq

lemma getD_range_map {α : Type} (f : ℕ → α) {L i : ℕ} (d : α) (h : i < L) :
    (((List.range L).map f).getD i d) = f i := by
  rw [List.getD_eq_getElem?_getD, List.getElem?_map, List.getElem?_range h,
    Option.map_some', Option.getD_some]

lemma getD_range_map_default {α : Type} (f : ℕ → α) {L i : ℕ} (d : α) (h : L ≤ i) :
    (((List.range L).map f).getD i d) = d := by
  rw [List.getD_eq_getElem?_getD, List.getElem?_eq_none (by simpa using h)]
  rfl

lemma getD_replicate_none {α : Type} (L i : ℕ) :
    (List.replicate L (none : Option α)).getD i none = none := by
  rw [List.getD_eq_getElem?_getD, List.getElem?_replicate]
  split <;> rfl

lemma clamp_nonneg (x : ℚ) : 0 ≤ clamp x 0 100 := le_max_left 0 _

lemma clamp_le_hundred (x : ℚ) : clamp x 0 100 ≤ 100 :=
  max_le (by norm_num) (min_le_left _ _)

lemma radar_debug_eq {rows : List CandRow} {mt : String} {mms : List (String × ℚ)}
    {cfg : RadarConfig} {latest : String} (hl : latestStrOf rows = some latest) :
    (computeRadarFromCandidates rows mt mms cfg).candidatesDebug
      = sortScoredDesc (rows.filterMap (processRow latest (liqMinOf cfg) (macroMultOf mt mms))) := by
  simp only [computeRadarFromCandidates, hl]

lemma radar_picks_eq {rows : List CandRow} {mt : String} {mms : List (String × ℚ)}
    {cfg : RadarConfig} {latest : String} (hl : latestStrOf rows = some latest) :
    (computeRadarFromCandidates rows mt mms cfg).picks
      = sortPicksDesc ((rows.filterMap
          (processRow latest (liqMinOf cfg) (macroMultOf mt mms))).map pickOfScored) := by
  simp only [computeRadarFromCandidates, hl]

lemma radar_debug_empty {rows : List CandRow} {mt : String} {mms : List (String × ℚ)}
    {cfg : RadarConfig} (hl : latestStrOf rows = none) :
    (computeRadarFromCandidates rows mt mms cfg).candidatesDebug = [] := by
  simp only [computeRadarFromCandidates, hl]

lemma radar_picks_empty {rows : List CandRow} {mt : String} {mms : List (String × ℚ)}
    {cfg : RadarConfig} (hl : latestStrOf rows = none) :
    (computeRadarFromCandidates rows mt mms cfg).picks = [] := by
  simp only [computeRadarFromCandidates, hl]

lemma processRow_some_fields {latestStr : String} {liqMin macroMult : ℚ} {row : CandRow}
    {sr : ScoredRow} (h : processRow latestStr liqMin macroMult row = some sr) :
    liqMin ≤ sr.volume ∧ sr.macroMult = macroMult
      ∧ sr.baseScore = clamp ((0.30 : ℚ) * sr.sMom + (0.20 : ℚ) * sr.sVol
          + (0.25 : ℚ) * sr.sTrend + (0.15 : ℚ) * sr.sBreakout + (0.10 : ℚ) * sr.sRs) 0 100
      ∧ sr.adjScore = sr.baseScore * sr.macroMult - sr.atrPenalty := by
  simp only [processRow] at h
  split at h
  · exact Option.noConfusion h
  split at h
  · exact Option.noConfusion h
  split at h
  · exact Option.noConfusion h
  split at h
  · exact Option.noConfusion h
  rename_i hvol
  injection h with h'
  subst h'
  exact ⟨le_of_not_lt hvol, rfl, rfl, rfl⟩

/-!
Theorems for the claims.
-/

/-- C5: in every Scoring Engine result, candidates_debug is sorted
non-increasing by adj_score: every earlier entry's adj_score is
greater than or equal to every later entry's, in particular for each
adjacent pair. -/
theorem candidatesDebug_sorted_nonincreasing (rows : List CandRow) (macroTrend : String)
    (macroMults : List (String × ℚ)) (config : RadarConfig) :
    List.Pairwise (fun a b => b.adjScore ≤ a.adjScore)
      (computeRadarFromCandidates rows macroTrend macroMults config).candidatesDebug := by
  cases hl : latestStrOf rows with
  | none => rw [radar_debug_empty hl]; exact List.Pairwise.nil
  | some latest => rw [radar_debug_eq hl]; exact sorted_sortScoredDesc _

/-- C3: a Candidate Row whose volume is below the configured liquidity
floor appears in neither picks nor candidates_debug: every emitted
entry of either list carries a volume at least the floor, and the
floor defaults to 1,000,000 on an empty config. -/
theorem liquidity_filter_excludes (rows : List CandRow) (macroTrend : String)
    (macroMults : List (String × ℚ)) (config : RadarConfig) :
    (∀ e ∈ (computeRadarFromCandidates rows macroTrend macroMults config).candidatesDebug,
        liqMinOf config ≤ e.volume)
    ∧ (∀ p ∈ (computeRadarFromCandidates rows macroTrend macroMults config).picks,
        liqMinOf config ≤ p.volume)
    ∧ liqMinOf defaultRadarConfig = 1000000 := by
  refine ⟨?_, ?_, rfl⟩
  · intro e he
    cases hl : latestStrOf rows with
    | none => rw [radar_debug_empty hl] at he; exact absurd he (List.not_mem_nil e)
    | some latest =>
      rw [radar_debug_eq hl] at he
      obtain ⟨row, -, hrow⟩ := List.mem_filterMap.mp (mem_sortScoredDesc.mp he)
      exact (processRow_some_fields hrow).1
  · intro p hp
    cases hl : latestStrOf rows with
    | none => rw [radar_picks_empty hl] at hp; exact absurd hp (List.not_mem_nil p)
    | some latest =>
      rw [radar_picks_eq hl] at hp
      obtain ⟨sr, hsr, rfl⟩ := List.mem_map.mp (mem_sortPicksDesc.mp hp)
      obtain ⟨row, -, hrow⟩ := List.mem_filterMap.mp hsr
      exact (processRow_some_fields hrow).1

lemma latest_rowA : latestStrOf [rowA] = some "2025-01-10" := by decide

lemma macroMult_green : macroMultOf "GREEN" demoMults = 1 := by decide

lemma processRow_rowA : processRow "2025-01-10" 1000000 1 rowA = some srA := by
  have hdate : normalizeDateToStr (some "2025-01-10") = "2025-01-10" := by decide
  simp only [processRow, rowA, simpleRow, orStr, getAtrRaw, toFloatOpt, toFloat]
  norm_num [clamp, srA, min_def, max_def]
  simp [hdate]

lemma srA_mem_debug :
    srA ∈ (computeRadarFromCandidates [rowA] "GREEN" demoMults defaultRadarConfig).candidatesDebug := by
  rw [radar_debug_eq latest_rowA]
  have hliq : liqMinOf defaultRadarConfig = 1000000 := rfl
  rw [hliq, macroMult_green]
  exact mem_sortScoredDesc.mpr
    (List.mem_filterMap.mpr ⟨rowA, List.mem_singleton_self rowA, processRow_rowA⟩)

/-- Witness for C3 at a concrete input. -/
theorem liquidity_filter_excludes_witness : liqMinOf defaultRadarConfig ≤ srA.volume :=
  (liquidity_filter_excludes [rowA] "GREEN" demoMults defaultRadarConfig).1 srA srA_mem_debug

/-- C4: every candidates_debug entry carries a base score equal to the
clamped weighted sum 0.30 s_mom + 0.20 s_vol + 0.25 s_trend
+ 0.15 s_breakout + 0.10 s_rs, hence in [0,100], and an adjusted
score equal to base * macro multiplier - ATR penalty exactly, with no
clamp after the subtraction. -/
theorem base_and_adjusted_score_formulas (rows : List CandRow) (macroTrend : String)
    (macroMults : List (String × ℚ)) (config : RadarConfig) :
    ∀ e ∈ (computeRadarFromCandidates rows macroTrend macroMults config).candidatesDebug,
      e.baseScore = clamp ((0.30 : ℚ) * e.sMom + (0.20 : ℚ) * e.sVol + (0.25 : ℚ) * e.sTrend
          + (0.15 : ℚ) * e.sBreakout + (0.10 : ℚ) * e.sRs) 0 100
      ∧ 0 ≤ e.baseScore ∧ e.baseScore ≤ 100
      ∧ e.adjScore = e.baseScore * e.macroMult - e.atrPenalty := by
  intro e he
  cases hl : latestStrOf rows with
  | none => rw [radar_debug_empty hl] at he; exact absurd he (List.not_mem_nil e)
  | some latest =>
    rw [radar_debug_eq hl] at he
    obtain ⟨row, -, hrow⟩ := List.mem_filterMap.mp (mem_sortScoredDesc.mp he)
    obtain ⟨-, -, hbase, hadj⟩ := processRow_some_fields hrow
    exact ⟨hbase, hbase ▸ clamp_nonneg _, hbase ▸ clamp_le_hundred _, hadj⟩

/-- Witness for C4 at a concrete input. -/
theorem base_and_adjusted_score_formulas_witness :
    0 ≤ srA.baseScore ∧ srA.baseScore ≤ 100
      ∧ srA.adjScore = srA.baseScore * srA.macroMult - srA.atrPenalty := by
  obtain ⟨-, h1, h2, h3⟩ :=
    base_and_adjusted_score_formulas [rowA] "GREEN" demoMults defaultRadarConfig srA srA_mem_debug
  exact ⟨h1, h2, h3⟩

/-- Counterexample for C2: with RADAR_USE_SECTOR_CAP true and
RADAR_SECTOR_CAP 1 in the config and three liquid same-sector
candidates on the same date, picks still contains all three entries
(the claim would allow only the top one to survive into picks). -/
theorem sector_cap_claim_cex :
    ((computeRadarFromCandidates [rowB, rowC, rowA] "GREEN" demoMults
        sectorCapConfig).picks).length = 3
    ∧ ((computeRadarFromCandidates [rowB, rowC, rowA] "GREEN" demoMults
        sectorCapConfig).candidatesDebug).length = 3 := by
  have hl : latestStrOf [rowB, rowC, rowA] = some "2025-01-10" := by decide
  have hliq : liqMinOf sectorCapConfig = 1000000 := rfl
  obtain ⟨sB, hB⟩ : ∃ s, processRow "2025-01-10" 1000000 1 rowB = some s := ⟨_, rfl⟩
  obtain ⟨sC, hC⟩ : ∃ s, processRow "2025-01-10" 1000000 1 rowC = some s := ⟨_, rfl⟩
  constructor
  · rw [radar_picks_eq hl, hliq, macroMult_green, length_sortPicksDesc, List.length_map]
    simp [List.filterMap_cons, hB, hC, processRow_rowA]
  · rw [radar_debug_eq hl, hliq, macroMult_green, length_sortScoredDesc]
    simp [List.filterMap_cons, hB, hC, processRow_rowA]

/-- C2 amended: the sector-cap configuration keys are ignored — the
scoring result depends on the config only through the liquidity
floor — and picks is never filtered: it always has exactly as many
entries as candidates_debug, in sorted non-increasing adj_score
order. -/
theorem sector_cap_not_implemented :
    (∀ rows mt mms (c1 c2 : RadarConfig), liqMinOf c1 = liqMinOf c2 →
        computeRadarFromCandidates rows mt mms c1 = computeRadarFromCandidates rows mt mms c2)
    ∧ (∀ rows mt mms cfg,
        (computeRadarFromCandidates rows mt mms cfg).picks.length
          = (computeRadarFromCandidates rows mt mms cfg).candidatesDebug.length
        ∧ List.Pairwise (fun a b => b.adjScore ≤ a.adjScore)
            (computeRadarFromCandidates rows mt mms cfg).picks) := by
  constructor
  · intro rows mt mms c1 c2 h
    simp only [computeRadarFromCandidates, h]
  · intro rows mt mms cfg
    cases hl : latestStrOf rows with
    | none =>
      rw [radar_picks_empty hl, radar_debug_empty hl]
      exact ⟨rfl, List.Pairwise.nil⟩
    | some latest =>
      refine ⟨?_, ?_⟩
      · rw [radar_picks_eq hl, radar_debug_eq hl, length_sortPicksDesc,
          length_sortScoredDesc, List.length_map]
      · rw [radar_picks_eq hl]
        exact sorted_sortPicksDesc _

/-- Witness for the amended C2: enabling the sector-cap keys changes
nothing about the result. -/
theorem sector_cap_not_implemented_witness :
    computeRadarFromCandidates [rowB, rowC, rowA] "GREEN" demoMults sectorCapConfig
      = computeRadarFromCandidates [rowB, rowC, rowA] "GREEN" demoMults defaultRadarConfig :=
  sector_cap_not_implemented.1 [rowB, rowC, rowA] "GREEN" demoMults
    sectorCapConfig defaultRadarConfig rfl

lemma processRow_none_of_volume_none {latest : String} {liq mm : ℚ} {row : CandRow}
    (hv : toFloatOpt row.volume = none) (hliq : 0 < liq) :
    processRow latest liq mm row = none := by
  simp only [processRow, hv, Option.getD_none]
  split
  · rfl
  · split_ifs <;> rfl

/-- C10: a row whose volume field is missing, the None object, a float
NaN, or an unparseable string coerces to an absent volume, is treated
as volume 0, and is therefore dropped by the liquidity filter whenever
the floor is positive, appearing in neither candidates_debug nor
picks. -/
theorem missing_volume_treated_as_zero :
    toFloatOpt none = none ∧ toFloat PyVal.pynone = none ∧ toFloat PyVal.nan = none
    ∧ toFloat (PyVal.str "n/a") = none
    ∧ (∀ (latest : String) (liq mm : ℚ) (row : CandRow),
        toFloatOpt row.volume = none → 0 < liq → processRow latest liq mm row = none)
    ∧ (∀ (row : CandRow) (mt : String) (mms : List (String × ℚ)) (cfg : RadarConfig),
        toFloatOpt row.volume = none → 0 < liqMinOf cfg →
          (computeRadarFromCandidates [row] mt mms cfg).candidatesDebug = []
          ∧ (computeRadarFromCandidates [row] mt mms cfg).picks = []) := by
  refine ⟨rfl, rfl, rfl, by decide, ?_, ?_⟩
  · intro latest liq mm row hv hliq
    exact processRow_none_of_volume_none hv hliq
  · intro row mt mms cfg hv hliq
    cases hl : latestStrOf [row] with
    | none => exact ⟨radar_debug_empty hl, radar_picks_empty hl⟩
    | some latest =>
      rw [radar_debug_eq hl, radar_picks_eq hl]
      rw [List.filterMap_cons, processRow_none_of_volume_none hv hliq]
      exact ⟨rfl, rfl⟩

lemma rowForSymbol_error_indicators {cfg : IndCfg} {sym : String} {cndl : Candles} :
    ((rowForSymbol cfg sym cndl).error).isSome → (rowForSymbol cfg sym cndl).indicators = none := by
  unfold rowForSymbol
  split <;> simp

lemma run_eq_filterMap (symbols : List String) (cbs : List (String × Candles)) (cfg : IndCfg) :
    runIndicatorEngine symbols cbs cfg
      = symbols.filterMap (fun s => (lookupCandles cbs s).map (rowForSymbol cfg s)) := by
  induction symbols with
  | nil => rfl
  | cons s rest ih =>
    rw [List.filterMap_cons]
    cases h : lookupCandles cbs s with
    | none =>
      simp only [runIndicatorEngine, h, Option.map_none']
      exact ih
    | some cndl =>
      simp only [runIndicatorEngine, h, Option.map_some']
      rw [ih]

lemma atr_error_of_short {high low close : List ℚ} (h : close.length < 15) :
    atrFromCandles high low close 14 = .error "ATR verisi yetersiz" := by
  unfold atrFromCandles
  rw [if_pos]
  exact Or.inr (Or.inr (Or.inr (Or.inr (Or.inr h))))

lemma compute_error_of_short {sym : String} {cfg : IndCfg} {cndl : Candles}
    (hne : cndl.c ≠ []) (hlen : cndl.c.length < 15) :
    computeIndicatorsForSymbol sym cndl cfg = .error "ATR verisi yetersiz" := by
  simp only [computeIndicatorsForSymbol]
  rw [if_neg (by simpa using hne), atr_error_of_short hlen]

/-- C9: in real mode run_indicator_engine is total and exception-free:
it equals a filterMap that skips symbols without a candle entry, every
row whose error field is set carries an empty indicators map, the
output has exactly one row per symbol with candles (so one symbol's
failure never stops the rest), and both the zero-bar case and the
under-15-bar ATR case are the explicit per-symbol errors that the
wrapper converts into error rows. -/
theorem run_indicator_engine_robust :
    (∀ (symbols : List String) (cbs : List (String × Candles)) (cfg : IndCfg),
        runIndicatorEngine symbols cbs cfg
          = symbols.filterMap (fun s => (lookupCandles cbs s).map (rowForSymbol cfg s)))
    ∧ (∀ (symbols : List String) (cbs : List (String × Candles)) (cfg : IndCfg),
        ∀ r ∈ runIndicatorEngine symbols cbs cfg, r.error.isSome → r.indicators = none)
    ∧ (∀ (symbols : List String) (cbs : List (String × Candles)) (cfg : IndCfg),
        (runIndicatorEngine symbols cbs cfg).length
          = symbols.countP (fun s => (lookupCandles cbs s).isSome))
    ∧ (∀ (sym : String) (cfg : IndCfg),
        computeIndicatorsForSymbol sym emptyCandles cfg
          = .error ("No candle data for symbol " ++ sym))
    ∧ (∀ (sym : String) (cfg : IndCfg) (cndl : Candles), cndl.c ≠ [] → cndl.c.length < 15 →
        computeIndicatorsForSymbol sym cndl cfg = .error "ATR verisi yetersiz") := by
  refine ⟨run_eq_filterMap, ?_, ?_, fun sym cfg => rfl,
    fun sym cfg cndl hne hlen => compute_error_of_short hne hlen⟩
  · intro symbols cbs cfg r hr herr
    rw [run_eq_filterMap] at hr
    obtain ⟨s, -, hs⟩ := List.mem_filterMap.mp hr
    obtain ⟨cndl, -, hrow⟩ := Option.map_eq_some'.mp hs
    exact hrow ▸ rowForSymbol_error_indicators (hrow ▸ herr)
  · intro symbols cbs cfg
    induction symbols with
    | nil => rfl
    | cons s rest ih =>
      rw [List.countP_cons]
      cases h : lookupCandles cbs s with
      | none => simp only [runIndicatorEngine, h, ih, Option.isSome_none]; simp
      | some cndl => simp only [runIndicatorEngine, h, List.length_cons, ih, Option.isSome_some]; simp

/-- C6: the EMA(n) series of a close series of length at least n is
undefined before index n-1, equals the SMA(n) of the first n values at
index n-1, and obeys the exact recurrence
ema[i] = close[i] * a + ema[i-1] * (1 - a) with a = 2/(n+1) for every
later in-range index. -/
theorem ema_seed_and_recurrence (series : List ℚ) (n : ℕ) (hn : 1 ≤ n)
    (hlen : n ≤ series.length) :
    (∀ i, i + 1 < n → (emaSeries series n).getD i none = none)
    ∧ (emaSeries series n).getD (n - 1) none = sma series n (n - 1)
    ∧ (∀ i, n ≤ i → i < series.length → ∃ prev,
        (emaSeries series n).getD (i - 1) none = some prev
        ∧ (emaSeries series n).getD i none
            = some (series.getD i 0 * (2 / ((n : ℚ) + 1))
                + prev * (1 - 2 / ((n : ℚ) + 1)))) := by
  have hnl : ¬ series.length < n := not_lt.mpr hlen
  refine ⟨?_, ?_, ?_⟩
  · intro i hi
    simp only [emaSeries, if_neg hnl]
    rw [getD_range_map _ none (by omega : i < series.length)]
    rw [if_pos hi]
  · simp only [emaSeries, if_neg hnl]
    rw [getD_range_map _ none (by omega : n - 1 < series.length)]
    rw [if_neg (by omega : ¬ (n - 1 + 1 < n))]
    have h2 : n - 1 + 1 - n = 0 := by omega
    rw [h2]
    have hne : series ≠ [] := by
      intro h
      rw [h] at hlen
      simp at hlen
      omega
    rw [sma, if_neg hne, if_neg (by omega : ¬ (n - 1 + 1 < n ∨ series.length ≤ n - 1))]
    rw [h2, List.drop_zero]
    rfl
  · intro i hni hiL
    refine ⟨emaRun series n (i - 1 + 1 - n), ?_, ?_⟩
    · simp only [emaSeries, if_neg hnl]
      rw [getD_range_map _ none (by omega : i - 1 < series.length)]
      rw [if_neg (by omega : ¬ (i - 1 + 1 < n))]
    · simp only [emaSeries, if_neg hnl]
      rw [getD_range_map _ none hiL]
      rw [if_neg (by omega : ¬ (i + 1 < n))]
      have h3 : i + 1 - n = (i - 1 + 1 - n) + 1 := by omega
      rw [h3]
      have h4 : n + (i - 1 + 1 - n) = i := by omega
      simp [emaRun, h4]

/-- Witness for C6 at a concrete input: the EMA(2) seed of [1, 2, 3]
is the SMA(2) at index 1. -/
theorem ema_seed_and_recurrence_witness :
    (emaSeries [1, 2, 3] 2).getD (2 - 1) none = sma [1, 2, 3] 2 (2 - 1) :=
  (ema_seed_and_recurrence [1, 2, 3] 2 (by decide) (by decide)).2.1

lemma rsiGainLoss_nonneg (deltas : List ℚ) :
    0 ≤ (rsiGainLoss deltas).1 ∧ 0 ≤ (rsiGainLoss deltas).2 := by
  suffices h : ∀ p : ℚ × ℚ, 0 ≤ p.1 → 0 ≤ p.2 →
      0 ≤ (deltas.foldl
        (fun p diff => if 0 < diff then (p.1 + diff, p.2) else (p.1, p.2 - diff)) p).1
      ∧ 0 ≤ (deltas.foldl
        (fun p diff => if 0 < diff then (p.1 + diff, p.2) else (p.1, p.2 - diff)) p).2 by
    exact h (0, 0) le_rfl le_rfl
  induction deltas with
  | nil => exact fun p h1 h2 => ⟨h1, h2⟩
  | cons d rest ih =>
    intro p h1 h2
    simp only [List.foldl_cons]
    by_cases hd : 0 < d
    · rw [if_pos hd]
      exact ih _ (by positivity) h2
    · rw [if_neg hd]
      exact ih _ h1 (by simp only [sub_nonneg] at *; linarith [not_lt.mp hd])

/-- C7: RSI-14 is undefined before 14 deltas exist (or past the end of
the series); when defined it lies in [0,100] and follows the
three-case rule over the summed gains and losses of the 14 deltas
ending at k: 100 with gains and no losses, 50 with neither, and
100 - 100/(1 + avgGain/avgLoss) otherwise. -/
theorem rsi14_range_and_cases (close : List ℚ) (k : ℕ) :
    ((k < 14 ∨ close.length ≤ k) → computeRsi14 close k = none)
    ∧ (14 ≤ k → k < close.length → ∃ r, computeRsi14 close k = some r
        ∧ 0 ≤ r ∧ r ≤ 100
        ∧ ((rsiGainLoss (rsiDeltas close k)).2 = 0 →
            (rsiGainLoss (rsiDeltas close k)).1 ≠ 0 → r = 100)
        ∧ ((rsiGainLoss (rsiDeltas close k)).2 = 0 →
            (rsiGainLoss (rsiDeltas close k)).1 = 0 → r = 50)
        ∧ ((rsiGainLoss (rsiDeltas close k)).2 ≠ 0 →
            r = 100 - 100 / (1 + ((rsiGainLoss (rsiDeltas close k)).1 / 14)
              / ((rsiGainLoss (rsiDeltas close k)).2 / 14)))) := by
  constructor
  · intro h
    rw [computeRsi14, if_pos h]
  · intro hk14 hkL
    have hcond : ¬ (k < 14 ∨ close.length ≤ k) := by omega
    obtain ⟨hg0, hl0⟩ := rsiGainLoss_nonneg (rsiDeltas close k)
    rw [computeRsi14, if_neg hcond]
    by_cases hl : (rsiGainLoss (rsiDeltas close k)).2 = 0
    · rw [if_neg (by simp [hl])]
      by_cases hg : (rsiGainLoss (rsiDeltas close k)).1 = 0
      · rw [if_neg (by simp [hg])]
        exact ⟨50, rfl, by norm_num, by norm_num,
          fun _ hgg => absurd hg hgg, fun _ _ => rfl, fun hll => absurd hl hll⟩
      · rw [if_pos (by simp [hg])]
        exact ⟨100, rfl, by norm_num, by norm_num,
          fun _ _ => rfl, fun _ hge => absurd hge hg, fun hll => absurd hl hll⟩
    · rw [if_pos (by simp [hl])]
      have hlpos : 0 < (rsiGainLoss (rsiDeltas close k)).2 := lt_of_le_of_ne hl0 (Ne.symm hl)
      have hrs : 0 ≤ ((rsiGainLoss (rsiDeltas close k)).1 / 14)
          / ((rsiGainLoss (rsiDeltas close k)).2 / 14) := by positivity
      have hfrac0 : 0 < (100 : ℚ) / (1 + ((rsiGainLoss (rsiDeltas close k)).1 / 14)
          / ((rsiGainLoss (rsiDeltas close k)).2 / 14)) := by positivity
      have hfrac1 : (100 : ℚ) / (1 + ((rsiGainLoss (rsiDeltas close k)).1 / 14)
          / ((rsiGainLoss (rsiDeltas close k)).2 / 14)) ≤ 100 :=
        div_le_self (by norm_num) (by linarith)
      exact ⟨_, rfl, by linarith, by linarith,
        fun hle => absurd hle hl, fun hle => absurd hle hl, fun _ => rfl⟩

/-- Witness for C7 at a concrete input: a 15-bar close series defines
RSI-14 at its last index. -/
theorem rsi14_range_and_cases_witness :
    ∃ r, computeRsi14 (List.replicate 15 (5 : ℚ)) 14 = some r ∧ 0 ≤ r ∧ r ≤ 100 := by
  obtain ⟨r, h1, h2, h3, -⟩ :=
    (rsi14_range_and_cases (List.replicate 15 (5 : ℚ)) 14).2 (by decide) (by decide)
  exact ⟨r, h1, h2, h3⟩

lemma adxStep_succ_eq (high low close : List ℚ) (n m : ℕ) (hne : n + 1 + m ≠ n + 1)
    {prev : ℚ} (hprev : (adxStep high low close n m).outPrev = some prev) :
    ∃ dx, (adxStep high low close n (m + 1)).dxPrev = some dx
      ∧ (adxStep high low close n (m + 1)).outPrev
          = some ((prev * ((n : ℚ) - 1) + dx) / (n : ℚ)) := by
  simp only [adxStep]
  rw [if_neg hne, hprev]
  exact ⟨_, rfl, rfl⟩

lemma adxStep_pos_outPrev_isSome (high low close : List ℚ) (n m : ℕ) (hm : 1 ≤ m) :
    ∃ q, (adxStep high low close n m).outPrev = some q := by
  obtain ⟨m', rfl⟩ : ∃ m', m = m' + 1 := ⟨m - 1, by omega⟩
  exact ⟨_, rfl⟩

/-- C8: the ADX series is entirely undefined for inputs with fewer
than 15 bars (and in any case before index 15); with at least 16 bars
its very first defined output, at index n+1 = 15, equals the raw DX
computed at that index (the dx_prev recorded by the same smoothing
step) rather than an average of 14 DX values; and every later in-range
output obeys the Wilder smoothing out[i] = (out[i-1]*13 + dx)/14. -/
theorem adx_boundary_and_recurrence (high low close : List ℚ) :
    (close.length < 15 → adxSeries high low close 14 = List.replicate close.length none)
    ∧ (∀ i, i < 15 → (adxSeries high low close 14).getD i none = none)
    ∧ (16 ≤ close.length →
        (adxSeries high low close 14).getD 15 none = (adxStep high low close 14 1).dxPrev
        ∧ ((adxStep high low close 14 1).dxPrev).isSome = true)
    ∧ (∀ i, 16 ≤ i → i < close.length → ∃ prev dx,
        (adxSeries high low close 14).getD (i - 1) none = some prev
        ∧ (adxStep high low close 14 (i - 14)).dxPrev = some dx
        ∧ (adxSeries high low close 14).getD i none = some ((prev * 13 + dx) / 14)) := by
  refine ⟨?_, ?_, ?_, ?_⟩
  · intro h
    simp only [adxSeries]
    rw [if_pos h]
  · intro i hi
    by_cases hL : close.length < 14 + 1
    · simp only [adxSeries]
      rw [if_pos hL, getD_replicate_none]
    · simp only [adxSeries]
      rw [if_neg hL]
      by_cases hiL : i < close.length
      · rw [getD_range_map _ none hiL, if_pos hi]
      · rw [getD_range_map_default _ none (by omega)]
  · intro hlen
    constructor
    · simp only [adxSeries]
      rw [if_neg (by omega : ¬ close.length < 14 + 1)]
      rw [getD_range_map _ none (by omega : 15 < close.length)]
      rw [if_neg (by omega : ¬ (15 < 14 + 1))]
      rfl
    · rfl
  · intro i h16 hiL
    have hm : i - 14 = (i - 15) + 1 := by omega
    obtain ⟨prev, hprev⟩ :=
      adxStep_pos_outPrev_isSome high low close 14 (i - 15) (by omega)
    obtain ⟨dx, hdx, hout⟩ :=
      adxStep_succ_eq high low close 14 (i - 15) (by omega) hprev
    rw [← hm] at hdx hout
    refine ⟨prev, dx, ?_, hdx, ?_⟩
    · simp only [adxSeries]
      rw [if_neg (by omega : ¬ close.length < 14 + 1)]
      rw [getD_range_map _ none (by omega : i - 1 < close.length)]
      rw [if_neg (by omega : ¬ (i - 1 < 14 + 1))]
      have h15 : i - 1 - 14 = i - 15 := by omega
      rw [h15]
      exact hprev
    · simp only [adxSeries]
      rw [if_neg (by omega : ¬ close.length < 14 + 1)]
      rw [getD_range_map _ none hiL, if_neg (by omega : ¬ (i < 14 + 1)), hout]
      norm_num

/-- Witness for C8 at a concrete input: 17 flat bars define the first
smoothed ADX values. -/
theorem adx_boundary_and_recurrence_witness :
    ((adxStep (List.replicate 17 (6 : ℚ)) (List.replicate 17 (4 : ℚ))
      (List.replicate 17 (5 : ℚ)) 14 1).dxPrev).isSome = true :=
  ((adx_boundary_and_recurrence (List.replicate 17 (6 : ℚ)) (List.replicate 17 (4 : ℚ))
    (List.replicate 17 (5 : ℚ))).2.2.1 (by decide)).2

/-- Witness for C9 at a concrete input: a five-bar symbol hits the
explicit ATR error. -/
theorem run_indicator_engine_robust_witness :
    computeIndicatorsForSymbol "AAA" fiveCandles defaultIndCfg = .error "ATR verisi yetersiz" :=
  run_indicator_engine_robust.2.2.2.2 "AAA" defaultIndCfg fiveCandles (by decide) (by decide)

lemma atr_ok_of_length {high low close : List ℚ} (h1 : 15 ≤ high.length)
    (h2 : 15 ≤ low.length) (h3 : 15 ≤ close.length) :
    ∃ q, atrFromCandles high low close 14 = .ok q := by
  unfold atrFromCandles
  rw [if_neg]
  · exact ⟨_, rfl⟩
  · push_neg
    exact ⟨List.length_pos.mp (by omega), List.length_pos.mp (by omega),
      List.length_pos.mp (by omega), by omega, by omega, by omega⟩

lemma emaAt_last_isSome {series : List ℚ} {n : ℕ} (h1 : 1 ≤ series.length) :
    ((emaAt series n (series.length - 1)).isSome = true) ↔ n ≤ series.length := by
  unfold emaAt
  rw [if_neg (by omega : ¬ series.length ≤ series.length - 1)]
  by_cases hn : series.length < n
  · simp only [emaSeries]
    rw [if_pos hn, getD_replicate_none]
    exact ⟨fun h => by simp at h, fun h => absurd h (by omega)⟩
  · simp only [emaSeries]
    rw [if_neg hn, getD_range_map _ none (by omega : series.length - 1 < series.length)]
    rw [if_neg (by omega : ¬ (series.length - 1 + 1 < n))]
    exact ⟨fun _ => by omega, fun _ => rfl⟩

lemma emaSeries_getD_some {series : List ℚ} {n k : ℕ} (hk : k < series.length)
    (hnk : n ≤ k + 1) : ∃ a, (emaSeries series n).getD k none = some a := by
  simp only [emaSeries]
  rw [if_neg (by omega), getD_range_map _ none hk, if_neg (by omega)]
  exact ⟨_, rfl⟩

/-- Counterexample for C1: at five bars the entire snapshot
computation aborts with the explicit ATR error — no Indicator Snapshot
is returned, so momentum and the basic bar fields are not populated;
upstream the symbol's output row carries the error and an empty
indicators map. -/
theorem indicator_five_bar_abort_cex :
    computeIndicatorsForSymbol "SASA.IS" fiveCandles defaultIndCfg
      = .error "ATR verisi yetersiz"
    ∧ rowForSymbol defaultIndCfg "SASA.IS" fiveCandles
      = ⟨"SASA.IS", none, none, some "ATR verisi yetersiz"⟩ := by
  constructor
  · exact compute_error_of_short (by decide) (by decide)
  · rw [rowForSymbol, compute_error_of_short (by decide) (by decide)]

lemma sma_some {series : List ℚ} {n k : ℕ} (hne : series ≠ [])
    (h1 : ¬ (k + 1 < n ∨ series.length ≤ k)) : ∃ s, sma series n k = some s := by
  rw [sma, if_neg hne, if_neg h1]
  exact ⟨_, rfl⟩

lemma cciSeries_getD_isSome {tp : List ℚ} {n k : ℕ} {s : ℚ} (hk : k < tp.length)
    (hs : sma tp n k = some s) : ((cciSeries tp n).getD k none).isSome = true := by
  simp only [cciSeries]
  rw [getD_range_map _ none hk, hs]
  split
  · rename_i heq
    exact Option.noConfusion heq
  · split <;> rfl

lemma length_tpOf (high low close : List ℚ) : (tpOf high low close).length = close.length := by
  simp [tpOf]

/-- C1 amended: for a Bar Series of length 5 the indicator computation
fails as a whole (the ATR error aborts the snapshot; nothing else is
populated), while for any series meeting ATR's 15-bar minimum the
computation never aborts: it returns a snapshot whose basic bar fields
are always populated and in which each remaining feature is absent
exactly when its own minimum history is unmet (RSI-14 always present
at 15+ bars, EMA20/CCI20 need 20, EMA50 needs 50, ADX needs 16, MACD
needs 27, 5-day momentum needs 6 bars and non-zero reference closes). -/
theorem indicator_partial_history :
    (computeIndicatorsForSymbol "SASA.IS" fiveCandles defaultIndCfg
        = .error "ATR verisi yetersiz")
    ∧ (∀ (sym : String) (cfg : IndCfg) (cndl : Candles),
        15 ≤ cndl.c.length → 15 ≤ cndl.h.length → 15 ≤ cndl.l.length →
        ∃ info, computeIndicatorsForSymbol sym cndl cfg = .ok info
          ∧ info.indicators.rsi14.isSome = true
          ∧ (info.indicators.ema20.isSome = true ↔ 20 ≤ cndl.c.length)
          ∧ (info.indicators.ema50.isSome = true ↔ 50 ≤ cndl.c.length)
          ∧ (info.indicators.adx14.isSome = true ↔ 16 ≤ cndl.c.length)
          ∧ (info.indicators.cci20.isSome = true ↔ 20 ≤ cndl.c.length)
          ∧ (info.indicators.macd.isSome = true ↔ 27 ≤ cndl.c.length)
          ∧ info.indicators.close = cndl.c.getD (cndl.c.length - 1) 0
          ∧ info.indicators.high = cndl.h.getD (cndl.c.length - 1) 0
          ∧ info.indicators.low = cndl.l.getD (cndl.c.length - 1) 0
          ∧ (info.indicators.mom5.isSome = true ↔
              (5 ≤ cndl.c.length - 1 ∧ cndl.c.getD (cndl.c.length - 1) 0 ≠ 0
                ∧ cndl.c.getD (cndl.c.length - 1 - 5) 0 ≠ 0))) := by
  constructor
  · exact compute_error_of_short (by decide) (by decide)
  · intro sym cfg cndl h15c h15h h15l
    obtain ⟨atr, hatr⟩ := atr_ok_of_length h15h h15l h15c
    simp only [computeIndicatorsForSymbol]
    rw [if_neg (by omega : ¬ cndl.c.length = 0), hatr]
    refine ⟨_, rfl, ?_, ?_, ?_, ?_, ?_, ?_, rfl, rfl, rfl, ?_⟩
    · show (computeRsi14 cndl.c (cndl.c.length - 1)).isSome = true
      simp only [computeRsi14]
      rw [if_neg (by omega)]
      split_ifs <;> rfl
    · show (emaAt cndl.c 20 (cndl.c.length - 1)).isSome = true ↔ 20 ≤ cndl.c.length
      exact emaAt_last_isSome (by omega)
    · show (emaAt cndl.c 50 (cndl.c.length - 1)).isSome = true ↔ 50 ≤ cndl.c.length
      exact emaAt_last_isSome (by omega)
    · show (if 14 ≤ cndl.c.length - 1 then
          (adxSeries cndl.h cndl.l cndl.c 14).getD (cndl.c.length - 1) none
          else none).isSome = true ↔ 16 ≤ cndl.c.length
      rw [if_pos (by omega)]
      by_cases h16 : 16 ≤ cndl.c.length
      · obtain ⟨q, hq⟩ :=
          adxStep_pos_outPrev_isSome cndl.h cndl.l cndl.c 14 (cndl.c.length - 1 - 14) (by omega)
        simp only [adxSeries]
        rw [if_neg (by omega), getD_range_map _ none (by omega),
          if_neg (by omega : ¬ (cndl.c.length - 1 < 14 + 1)), hq]
        exact iff_of_true rfl h16
      · simp only [adxSeries]
        rw [if_neg (by omega), getD_range_map _ none (by omega),
          if_pos (by omega : cndl.c.length - 1 < 14 + 1)]
        exact iff_of_false (by simp) h16
    · show (if 19 ≤ cndl.c.length - 1 then
          (cciSeries (tpOf cndl.h cndl.l cndl.c) 20).getD (cndl.c.length - 1) none
          else none).isSome = true ↔ 20 ≤ cndl.c.length
      by_cases h20 : 20 ≤ cndl.c.length
      · rw [if_pos (by omega)]
        have htp := length_tpOf cndl.h cndl.l cndl.c
        obtain ⟨s, hs⟩ : ∃ s, sma (tpOf cndl.h cndl.l cndl.c) 20 (cndl.c.length - 1) = some s := by
          refine sma_some ?_ ?_
          · intro hnil
            rw [hnil] at htp
            simp at htp
            omega
          · rw [htp]
            omega
        exact iff_of_true (cciSeries_getD_isSome (by omega) hs) h20
      · rw [if_neg (by omega)]
        exact iff_of_false (by simp) h20
    · show (if 26 ≤ cndl.c.length - 1 then
          (macdMainLine cndl.c).getD (cndl.c.length - 1) none else none).isSome = true
          ↔ 27 ≤ cndl.c.length
      by_cases h27 : 27 ≤ cndl.c.length
      · rw [if_pos (by omega)]
        simp only [macdMainLine]
        rw [getD_range_map _ none (by omega)]
        obtain ⟨a, ha⟩ := emaSeries_getD_some
          (show cndl.c.length - 1 < cndl.c.length by omega)
          (show 12 ≤ cndl.c.length - 1 + 1 by omega)
        obtain ⟨b, hb⟩ := emaSeries_getD_some
          (show cndl.c.length - 1 < cndl.c.length by omega)
          (show 26 ≤ cndl.c.length - 1 + 1 by omega)
        rw [ha, hb]
        exact iff_of_true rfl h27
      · rw [if_neg (by omega)]
        exact iff_of_false (by simp) h27
    · show (if 5 ≤ cndl.c.length - 1 ∧ cndl.c.getD (cndl.c.length - 1) 0 ≠ 0 then
          if cndl.c.getD (cndl.c.length - 1 - 5) 0 ≠ 0 then
            some (cndl.c.getD (cndl.c.length - 1) 0 / cndl.c.getD (cndl.c.length - 1 - 5) 0 - 1)
          else none
          else none).isSome = true
          ↔ (5 ≤ cndl.c.length - 1 ∧ cndl.c.getD (cndl.c.length - 1) 0 ≠ 0
              ∧ cndl.c.getD (cndl.c.length - 1 - 5) 0 ≠ 0)
      split_ifs with hg1 hg2
      · exact iff_of_true rfl ⟨hg1.1, hg1.2, hg2⟩
      · exact iff_of_false (by simp) (by tauto)
      · exact iff_of_false (by simp) (by tauto)

/-- Witness for the amended C1 at a concrete input: sixteen bars give
a returned snapshot. -/
theorem indicator_partial_history_witness :
    ∃ info, computeIndicatorsForSymbol "AAA" candles16 defaultIndCfg = .ok info := by
  obtain ⟨info, h, -⟩ :=
    indicator_partial_history.2 "AAA" defaultIndCfg candles16 (by decide) (by decide) (by decide)
  exact ⟨info, h⟩

/-- Witness for C10 at a concrete input. -/
theorem missing_volume_treated_as_zero_witness :
    processRow "2025-01-10" 1000000 1 rowNan = none
    ∧ (computeRadarFromCandidates [rowNan] "GREEN" demoMults defaultRadarConfig).picks = [] :=
  ⟨missing_volume_treated_as_zero.2.2.2.2.1 "2025-01-10" 1000000 1 rowNan rfl (by decide),
    (missing_volume_treated_as_zero.2.2.2.2.2 rowNan "GREEN" demoMults defaultRadarConfig
      rfl (by decide)).2⟩
